import Mathlib

/-!
Shallow embedding of the daily-dashboard app (`app.py`): the holiday lookup,
the weather-payload extraction, the news extraction, the text normalization
and the garbage schedule, together with theorems settling the spec's claims.

Modelling conventions:
* Calendar dates are ordinal day numbers (`Nat`); `date.weekday()` becomes
  `d % 7`.
* A value produced by `to_jst_datetime` is modelled post-conversion as a
  `JDT`: its JST calendar day plus the `%H:%M` display label.  The ISO-8601
  parsing itself is Python library code, outside the extraction logic the
  claims are about.
* Python `float(...)` parsing of temperature strings is modelled by an
  abstract `parse : String → Option ℚ` argument (`none` = `ValueError`).
* A JSON value that may be `null` is an `Option`; Python dict `.get` with a
  default is modelled by giving the field the defaulted type directly.
-/

/-! ## Definitions -/

/-- A JST datetime as produced by `to_jst_datetime`: the JST calendar day
(ordinal day number) and the `strftime("%H:%M")` label used for display. -/
structure JDT where
  day : Nat
  hm : String
deriving DecidableEq, Repr

/-- The next-holiday scan of `get_holiday_status`: iterate the holiday keys
in sorted order (`for target in sorted(holidays)`) and return the first key
strictly greater than today, else `None`. -/
def nextHoliday (keys : List Nat) (today : Nat) : Option Nat :=
  (List.insertionSort (· ≤ ·) keys).find? (fun k => decide (today < k))

/-- The whitespace characters stripped by Python `str.strip()` that can occur
here (ASCII whitespace plus the full-width space U+3000). -/
def isPyWS (c : Char) : Bool :=
  c = ' ' || c = '\t' || c = '\n' || c = '\r' || c = '\x0b' || c = '\x0c' ||
    c = '　'

/-- Python `value.replace("　", " ")` on the character list of a string. -/
def replaceFW (l : List Char) : List Char :=
  l.map fun c => if c = '　' then ' ' else c

/-- Python `str.strip()`: drop whitespace from both ends. -/
def stripChars (l : List Char) : List Char :=
  ((l.dropWhile isPyWS).reverse.dropWhile isPyWS).reverse

/-- The body of `normalize_text` on character lists:
`(value or "").replace("　", " ").strip()`. -/
def normChars (l : List Char) : List Char :=
  stripChars (replaceFW l)

/-- The function `normalize_text` itself. -/
def normalize_text (v : Option String) : String :=
  String.mk (normChars (v.getD "").toList)

/-- Returns `true` iff the list has no two adjacent whitespace characters, i.e. all
whitespace runs have been collapsed. -/
def noWSRun : List Char → Bool
  | [] => true
  | [_] => true
  | a :: b :: rest => (!(isPyWS a && isPyWS b)) && noWSRun (b :: rest)

/-- One area block of a forecast time series.  `areaCode` is
`area.get("area", {}).get("code")` (`none` when either key is missing); the
value arrays are `.get("weathers"/"pops"/"temps", [])`, whose entries may be
JSON `null`. -/
structure Area where
  areaCode : Option String
  weathers : List (Option String)
  pops : List (Option String)
  temps : List (Option String)
deriving DecidableEq, Repr

/-- The function `find_area_block`: first block whose area code equals `code`, else
`None`. -/
def find_area_block (areas : List Area) (code : String) : Option Area :=
  areas.find? fun a => decide (a.areaCode = some code)

/-- The constant `FORECAST_AREA_CODE = "140010"` (app.py line 21). -/
def FORECAST_AREA_CODE : String := "140010"

/-- The constant `TEMP_AREA_CODE = "46106"` (app.py line 22). -/
def TEMP_AREA_CODE : String := "46106"

/-- One entry of `forecast[0]["timeSeries"]`: the `timeDefines` timestamps
(modelled post-JST-conversion) and the area blocks. -/
structure Series where
  timeDefines : List JDT
  areas : List Area
deriving DecidableEq, Repr

/-- One entry of the forecast JSON array; `reportDatetime` is `none` when
the key is missing or its value is falsy. -/
structure FEntry where
  reportDatetime : Option JDT
  timeSeries : List Series
deriving DecidableEq, Repr

/-- The overview JSON object (`overview.get("text")`). -/
structure Overview where
  text : Option String
deriving DecidableEq, Repr

/-- The dictionary assembled by `get_weather_payload`. -/
structure Payload where
  weather_text : Option String
  weather_time : Option JDT
  pops : List (String × String)
  min_temp : Option ℚ
  max_temp : Option ℚ
  temp_source_date : Option Nat
  overview_text : String
  report_datetime : Option JDT
deriving DecidableEq, Repr

/-- The weather-text block (app.py lines 336-349): first sample of the
matched area whose JST day equals today sets text and time; otherwise fall
back to entry 0 of the value array when it is nonempty. -/
def weatherFields (today : Nat) (s : Series) : Option String × Option JDT :=
  match find_area_block s.areas FORECAST_AREA_CODE with
  | none => (none, none)
  | some a =>
    match (s.timeDefines.zip a.weathers).find? (fun p => decide (p.1.day = today)) with
    | some p => (some (normalize_text p.2), some p.1)
    | none =>
      match a.weathers with
      | [] => (none, none)
      | w :: _ => (some (normalize_text w), none)

/-- The precipitation loop (app.py lines 356-366): walk the timestamps, skip
positions past the end of the value array, skip falsy values, and keep
today's samples as `(label, value%)` pairs in order. -/
def popsFor (today : Nat) : List JDT → List (Option String) → List (String × String)
  | [], _ => []
  | _ :: _, [] => []
  | t :: ts, v :: vs =>
    match v with
    | none => popsFor today ts vs
    | some str =>
      if str = "" then popsFor today ts vs
      else if t.day = today then (t.hm, str ++ "%") :: popsFor today ts vs
      else popsFor today ts vs

/-- The spec's description of the pops list: exactly, in original order,
the aligned pairs whose timestamp falls on the target day and whose value
is non-falsy. -/
def popsSpec (today : Nat) (ts : List JDT) (vs : List (Option String)) :
    List (String × String) :=
  ((ts.zip vs).filter fun p =>
      decide (p.1.day = today) && !decide (p.2.getD "" = "")).map
    fun p => (p.1.hm, p.2.getD "" ++ "%")

/-- Running state of the temperature loop: the current `min_temp` and
`max_temp` and whether `temp_source_date` has been set to today. -/
structure TempAcc where
  mn : Option ℚ
  mx : Option ℚ
  srcMatched : Bool
deriving DecidableEq, Repr

/-- One min/max update (app.py lines 381-392): first sample seeds both
fields, later samples reduce with `min` / `max`. -/
def updAcc (s : TempAcc) (q : ℚ) : TempAcc :=
  ⟨some (match s.mn with | none => q | some m => Min.min m q),
   some (match s.mx with | none => q | some m => Max.max m q),
   true⟩

/-- One iteration of the temperature loop on an aligned (timestamp, value)
pair: falsy values are skipped, a same-day sample is parsed (`float` may
raise `ValueError`, modelled as `Except.error`) and folded into the
running min/max. -/
def tempStep (parse : String → Option ℚ) (today : Nat)
    (acc : Except Unit TempAcc) (tv : JDT × Option String) : Except Unit TempAcc :=
  match acc with
  | .error e => .error e
  | .ok s =>
    match tv.2 with
    | none => .ok s
    | some str =>
      if str = "" then .ok s
      else if tv.1.day = today then
        match parse str with
        | none => .error ()
        | some q => .ok (updAcc s q)
      else .ok s

/-- The whole temperature block (app.py lines 368-404): run the loop over
the aligned pairs, then apply the position-0/1 fallback when no sample
matched today.  In the fallback, `float(temps[i])` on a JSON `null` is an
uncaught `TypeError` (`Except.error`), while on an unparsable string the
`ValueError` is caught and the field stays `None`. -/
def tempFields (parse : String → Option ℚ) (today : Nat)
    (timeDefines : List JDT) (temps : List (Option String)) :
    Except Unit (Option ℚ × Option ℚ × Option Nat) :=
  match (timeDefines.zip temps).foldl (tempStep parse today)
      (Except.ok (TempAcc.mk none none false)) with
  | .error e => .error e
  | .ok s =>
    if s.srcMatched then .ok (s.mn, s.mx, some today)
    else
      match temps with
      | [] => .ok (s.mn, s.mx, none)
      | v0 :: rest =>
        match v0 with
        | none => .error ()
        | some s0 =>
          let src : Option Nat := timeDefines.head?.map fun t => t.day
          match rest with
          | [] => .ok (parse s0, none, src)
          | v1 :: _ =>
            match v1 with
            | none => .error ()
            | some s1 => .ok (parse s0, parse s1, src)

/-- The precipitation block of `get_weather_payload` (app.py lines
351-366): locate the forecast area inside series 1 and collect today's
pops. -/
def popsPart (today : Nat) (s : Series) : List (String × String) :=
  match find_area_block s.areas FORECAST_AREA_CODE with
  | none => []
  | some a => popsFor today s.timeDefines a.pops

/-- The temperature block of `get_weather_payload` (app.py lines 368-404):
locate the temperature area inside series 2 and accumulate today's
min/max with fallback. -/
def tempPart (parse : String → Option ℚ) (today : Nat) (s : Series) :
    Except Unit (Option ℚ × Option ℚ × Option Nat) :=
  match find_area_block s.areas TEMP_AREA_CODE with
  | none => .ok (none, none, none)
  | some a => tempFields parse today s.timeDefines a.temps

/-- The function `get_weather_payload`: overview text is set unconditionally from the
overview payload; series 0/1/2 of the first forecast entry (when present)
populate weather text, pops and temperatures independently. -/
def get_weather_payload (parse : String → Option ℚ) (forecast : List FEntry)
    (overview : Overview) (today : Nat) : Except Unit Payload :=
  match forecast with
  | [] =>
    .ok (Payload.mk none none [] none none none (normalize_text overview.text) none)
  | fc0 :: _ =>
    let w : Option String × Option JDT :=
      match fc0.timeSeries[0]? with
      | none => (none, none)
      | some s => weatherFields today s
    let pp : List (String × String) :=
      match fc0.timeSeries[1]? with
      | none => []
      | some s => popsPart today s
    let tres : Except Unit (Option ℚ × Option ℚ × Option Nat) :=
      match fc0.timeSeries[2]? with
      | none => .ok (none, none, none)
      | some s => tempPart parse today s
    match tres with
    | .error e => .error e
    | .ok (mn, mx, src) =>
      .ok (Payload.mk w.1 w.2 pp mn mx src (normalize_text overview.text)
        fc0.reportDatetime)

/-- One `<item>` of the RSS feed: `findtext` results for title, link and
pubDate (`none` when the child element is absent). -/
structure RawItem where
  title : Option String
  link : Option String
  pubDate : Option String
deriving DecidableEq, Repr

/-- The dictionary appended per item by `fetch_news`. -/
structure NewsItem where
  title : String
  link : String
  pub_date : String
deriving DecidableEq, Repr

/-- Field extraction and normalization for one feed item. -/
def extractItem (r : RawItem) : NewsItem :=
  NewsItem.mk (normalize_text r.title) (normalize_text r.link)
    (normalize_text r.pubDate)

/-- The item loop of `fetch_news`: `n` is the number of items accumulated
so far; each item is appended first, then the loop breaks once the
accumulated count reaches the limit. -/
def fetch_news_go (limit : Nat) : Nat → List RawItem → List NewsItem
  | _, [] => []
  | n, r :: rs =>
    extractItem r :: (if limit ≤ n + 1 then [] else fetch_news_go limit (n + 1) rs)

/-- The function `fetch_news` on a parsed feed. -/
def fetch_news (items : List RawItem) (limit : Nat) : List NewsItem :=
  fetch_news_go limit 0 items

/-- The `GARBAGE_SCHEDULE` dictionary, keyed by Python weekday
(0 = Monday). -/
def GARBAGE_SCHEDULE : Nat → Option String := fun n =>
  if n = 0 then some "なし"
  else if n = 1 then some "燃やすごみ（燃えないごみ・スプレー缶・乾電池）"
  else if n = 2 then some "プラスチック資源"
  else if n = 3 then some "なし"
  else if n = 4 then some "缶・ビン・ペットボトル（小さな金属類）"
  else if n = 5 then some "燃やすごみ（燃えないごみ・スプレー缶・乾電池）"
  else if n = 6 then some "なし"
  else none

/-- Python `date.weekday()` on ordinal day numbers (with Monday-aligned epoch). -/
def weekday (d : Nat) : Nat := d % 7

/-- The lookup of `render_garbage_section`:
`GARBAGE_SCHEDULE.get(day.weekday(), "情報なし")`. -/
def garbage_info (d : Nat) : String :=
  (GARBAGE_SCHEDULE (weekday d)).getD "情報なし"

/-! ## Theorems -/

/-- In a `≤`-sorted list, the first element found that is `> d` is a lower
bound of every element `> d` in the list. -/
theorem sorted_find_gt_min {d k : Nat} :
    ∀ {l : List Nat}, l.Sorted (· ≤ ·) →
      l.find? (fun x => decide (d < x)) = some k → ∀ x ∈ l, d < x → k ≤ x := by
  intro l
  induction l with
  | nil => intro _ h; simp at h
  | cons a l ih =>
    intro hs hf x hx hdx
    rcases List.sorted_cons.mp hs with ⟨ha, hsl⟩
    by_cases hda : d < a
    · rw [List.find?_cons_of_pos _ (by simpa using hda)] at hf
      cases hf
      rcases List.mem_cons.mp hx with rfl | hx
      · exact le_refl _
      · exact ha x hx
    · rw [List.find?_cons_of_neg _ (by simpa using hda)] at hf
      rcases List.mem_cons.mp hx with rfl | hx
      · exact absurd hdx hda
      · exact ih hsl hf x hx hdx

/-- C1: `get_holiday_status`'s next-holiday lookup returns the minimum key
strictly greater than today, or `none` when no key is greater; a present
result is never `≤ today` and is the unique minimal such key. -/
theorem nextHoliday_correct (keys : List Nat) (d : Nat) :
    (∀ k, nextHoliday keys d = some k →
        k ∈ keys ∧ d < k ∧ (∀ x ∈ keys, d < x → k ≤ x) ∧
          ∀ k', k' ∈ keys → d < k' → (∀ x ∈ keys, d < x → k' ≤ x) → k' = k) ∧
    (nextHoliday keys d = none → ∀ x ∈ keys, x ≤ d) := by
  have hperm : List.Perm (List.insertionSort (· ≤ ·) keys) keys :=
    List.perm_insertionSort _ _
  have hmem : ∀ x, x ∈ List.insertionSort (· ≤ ·) keys ↔ x ∈ keys :=
    fun x => hperm.mem_iff
  have hsort : (List.insertionSort (· ≤ ·) keys).Sorted (· ≤ ·) :=
    List.sorted_insertionSort _ _
  constructor
  · intro k hk
    have hkmem : k ∈ keys := (hmem k).mp (List.mem_of_find?_eq_some hk)
    have hdk : d < k := by simpa using List.find?_some hk
    have hmin : ∀ x ∈ keys, d < x → k ≤ x := by
      intro x hx hdx
      exact sorted_find_gt_min hsort hk x ((hmem x).mpr hx) hdx
    refine ⟨hkmem, hdk, hmin, ?_⟩
    intro k' hk'mem hdk' hk'min
    exact le_antisymm (hk'min k hkmem hdk) (hmin k' hk'mem hdk')
  · intro hnone x hx
    have := List.find?_eq_none.mp hnone x ((hmem x).mpr hx)
    simpa using this

/-- Witness for C1 at a concrete holiday index. -/
theorem nextHoliday_correct_witness :
    7 ∈ [10, 3, 7] ∧ 5 < 7 ∧ (∀ x ∈ [10, 3, 7], 5 < x → 7 ≤ x) ∧
      ∀ k', k' ∈ [10, 3, 7] → 5 < k' →
        (∀ x ∈ [10, 3, 7], 5 < x → k' ≤ x) → k' = 7 :=
  (nextHoliday_correct [10, 3, 7] 5).1 7 (by decide)

/-- The first element surviving `dropWhile p` fails `p`. -/
theorem head?_dropWhile_false {p : Char → Bool} :
    ∀ {l : List Char} {c : Char}, (l.dropWhile p).head? = some c → p c = false := by
  intro l
  induction l with
  | nil => intro c h; simp at h
  | cons a l ih =>
    intro c h
    by_cases hpa : p a
    · rw [List.dropWhile_cons_of_pos hpa] at h
      exact ih h
    · rw [List.dropWhile_cons_of_neg hpa] at h
      cases h
      exact Bool.not_eq_true _ ▸ eq_false_of_ne_true hpa

/-- The function `dropWhile` keeps the last element when its result is nonempty. -/
theorem getLast?_dropWhile_of_ne_nil {p : Char → Bool} :
    ∀ {l : List Char}, l.dropWhile p ≠ [] →
      (l.dropWhile p).getLast? = l.getLast? := by
  intro l
  induction l with
  | nil => intro h; simp at h
  | cons a l ih =>
    intro h
    by_cases hpa : p a
    · rw [List.dropWhile_cons_of_pos hpa] at h ⊢
      rcases hl : l with _ | ⟨b, l'⟩
      · rw [hl] at h; simp at h
      · rw [← hl, ih (hl ▸ h), hl, List.getLast?_cons_cons]
    · rw [List.dropWhile_cons_of_neg hpa]

/-- C9 counterexample: on the input `"a  b"` the normalization keeps the
interior double space, so runs of consecutive whitespace are not collapsed,
contrary to the claim. -/
theorem normalize_text_counterexample :
    normalize_text (some "a  b") = "a  b" ∧
      noWSRun (normalize_text (some "a  b")).toList = false := by
  exact ⟨rfl, rfl⟩

/-- C9 (amended): `normalize_text` replaces every full-width space by an
ordinary space and strips both ends: the output contains no full-width
space and neither starts nor ends with whitespace; interior whitespace runs
are preserved, not collapsed. -/
theorem normalize_text_trims (v : Option String) :
    (∀ c ∈ (normalize_text v).toList, c ≠ '　') ∧
      ∀ c, ((normalize_text v).toList.head? = some c → isPyWS c = false) ∧
        ((normalize_text v).toList.getLast? = some c → isPyWS c = false) := by
  have hrepr : (normalize_text v).toList = normChars (v.getD "").toList := rfl
  rw [hrepr]
  set l0 : List Char := (v.getD "").toList with hl0
  constructor
  · intro c hc
    have h1 : c ∈ (replaceFW l0).dropWhile isPyWS := by
      have := (List.dropWhile_suffix isPyWS).sublist.mem
        (List.mem_reverse.mp hc)
      exact List.mem_reverse.mp this
    have h2 : c ∈ replaceFW l0 := (List.dropWhile_suffix isPyWS).sublist.mem h1
    rcases List.mem_map.mp h2 with ⟨x, _, hx⟩
    by_cases hxf : x = '　'
    · rw [if_pos hxf] at hx; rw [← hx]; decide
    · rw [if_neg hxf] at hx; rw [← hx]; exact hxf
  · intro c
    constructor
    · intro hc
      simp only [normChars, stripChars] at hc
      rw [List.head?_reverse] at hc
      have hne : ((replaceFW l0).dropWhile isPyWS).reverse.dropWhile isPyWS ≠ [] := by
        intro hnil
        rw [hnil] at hc; simp at hc
      rw [getLast?_dropWhile_of_ne_nil hne, List.getLast?_reverse] at hc
      exact head?_dropWhile_false hc
    · intro hc
      simp only [normChars, stripChars] at hc
      rw [List.getLast?_reverse] at hc
      exact head?_dropWhile_false hc

/-- Witness for the amended C9 at a concrete input. -/
theorem normalize_text_trims_witness :
    'a' ≠ '　' ∧ isPyWS 'a' = false ∧ isPyWS 'b' = false :=
  ⟨(normalize_text_trims (some "　a b ")).1 'a' (by decide),
   ((normalize_text_trims (some "　a b ")).2 'a').1 (by decide),
   ((normalize_text_trims (some "　a b ")).2 'b').2 (by decide)⟩

/-- C5: `find_area_block` returns the first block whose area identifier
equals the code, and returns `none` — not an exception and not the first
block of the list — when no block matches. -/
theorem find_area_block_first (areas : List Area) (code : String) :
    (∀ a, find_area_block areas code = some a →
        a.areaCode = some code ∧
          ∃ pre post, areas = pre ++ a :: post ∧
            ∀ b ∈ pre, b.areaCode ≠ some code) ∧
    ((∀ a ∈ areas, a.areaCode ≠ some code) → find_area_block areas code = none) := by
  constructor
  · induction areas with
    | nil => intro a h; simp [find_area_block] at h
    | cons x xs ih =>
      intro a h
      by_cases hx : x.areaCode = some code
      · rw [find_area_block, List.find?_cons_of_pos _ (by simpa using hx)] at h
        cases h
        exact ⟨hx, [], xs, rfl, by simp⟩
      · rw [find_area_block, List.find?_cons_of_neg _ (by simpa using hx)] at h
        rcases ih a h with ⟨hcode, pre, post, heq, hpre⟩
        refine ⟨hcode, x :: pre, post, by rw [heq]; rfl, ?_⟩
        intro b hb
        rcases List.mem_cons.mp hb with rfl | hb
        · exact hx
        · exact hpre b hb
  · intro hnone
    rw [find_area_block]
    rw [List.find?_eq_none]
    intro a ha
    simpa using hnone a ha

/-- Witness for C5 at a concrete area list. -/
theorem find_area_block_first_witness :
    (Area.mk (some "140010") [] [] []).areaCode = some "140010" ∧
      (∃ pre post,
        [Area.mk (some "999") [] [] [],
         Area.mk (some "140010") [] [] [],
         Area.mk (some "140010") [some "x"] [] []] =
          pre ++ Area.mk (some "140010") [] [] [] :: post ∧
          ∀ b ∈ pre, b.areaCode ≠ some "140010") :=
  (find_area_block_first
    [Area.mk (some "999") [] [] [],
     Area.mk (some "140010") [] [] [],
     Area.mk (some "140010") [some "x"] [] []] "140010").1
    (Area.mk (some "140010") [] [] []) (by decide)

/-- C2: the pops list produced by `get_weather_payload` is exactly, in
original array order, the (time-label, value) pairs whose JST timestamp
falls on the target day and whose value is non-falsy; in particular the
value array `["", "30", null, "0"]` with four same-day timestamps yields
exactly the two entries for `"30"` and `"0"`. -/
theorem popsFor_eq_popsSpec (today : Nat) (ts : List JDT) (vs : List (Option String)) :
    popsFor today ts vs = popsSpec today ts vs ∧
      popsFor 5 [JDT.mk 5 "00:00", JDT.mk 5 "06:00", JDT.mk 5 "12:00", JDT.mk 5 "18:00"]
          [some "", some "30", none, some "0"] =
        [("06:00", "30%"), ("18:00", "0%")] ∧
      ∀ (parse : String → Option ℚ) (sw : Series) (rd : Option JDT) (ov : Overview),
        ∃ p, get_weather_payload parse
            [FEntry.mk rd
              [sw, Series.mk ts [Area.mk (some FORECAST_AREA_CODE) [] vs []]]]
            ov today = .ok p ∧
          p.pops = popsSpec today ts vs := by
  have hmain : ∀ (ts : List JDT) (vs : List (Option String)),
      popsFor today ts vs = popsSpec today ts vs := by
    intro ts
    induction ts with
    | nil => intro vs; simp [popsFor, popsSpec]
    | cons t ts ih =>
      intro vs
      cases vs with
      | nil => simp [popsFor, popsSpec]
      | cons v vs =>
        cases v with
        | none => simpa [popsFor, popsSpec] using ih vs
        | some str =>
          by_cases hs : str = ""
          · simpa [popsFor, popsSpec, hs] using ih vs
          · by_cases hd : t.day = today
            · simpa [popsFor, popsSpec, hs, hd] using ih vs
            · simpa [popsFor, popsSpec, hs, hd] using ih vs
  refine ⟨hmain ts vs, rfl, ?_⟩
  intro parse sw rd ov
  have hok : (match (FEntry.mk rd
        [sw, Series.mk ts [Area.mk (some FORECAST_AREA_CODE) [] vs []]]
        ).timeSeries[2]? with
      | none => (Except.ok (none, none, none) :
          Except Unit (Option ℚ × Option ℚ × Option Nat))
      | some s' => tempPart parse today s') = .ok (none, none, none) := rfl
  have h1 : (match (FEntry.mk rd
        [sw, Series.mk ts [Area.mk (some FORECAST_AREA_CODE) [] vs []]]
        ).timeSeries[1]? with
      | none => ([] : List (String × String))
      | some s' => popsPart today s') = popsSpec today ts vs := by
    show popsPart today (Series.mk ts [Area.mk (some FORECAST_AREA_CODE) [] vs []]) = _
    have hfind : find_area_block [Area.mk (some FORECAST_AREA_CODE) [] vs []]
        FORECAST_AREA_CODE = some (Area.mk (some FORECAST_AREA_CODE) [] vs []) := by
      simp [find_area_block]
    simp only [popsPart, hfind]
    exact hmain ts vs
  simp only [get_weather_payload, hok, h1]
  exact ⟨_, rfl, rfl⟩

/-- C4: when an area block is found but no timestamp falls on the target
day and the weather value array is nonempty, the weather text falls back to
the normalized entry at position 0 (and no target time is recorded). -/
theorem weatherFields_fallback (today : Nat) (s : Series) (a : Area)
    (w : Option String) (rest : List (Option String))
    (hfind : find_area_block s.areas FORECAST_AREA_CODE = some a)
    (hnone : ∀ t ∈ s.timeDefines, t.day ≠ today)
    (hws : a.weathers = w :: rest) :
    weatherFields today s = (some (normalize_text w), none) ∧
    ∀ (parse : String → Option ℚ) (rd : Option JDT) (ov : Overview),
      get_weather_payload parse [FEntry.mk rd [s]] ov today =
        .ok (Payload.mk (some (normalize_text w)) none [] none none none
          (normalize_text ov.text) rd) := by
  have hw : weatherFields today s = (some (normalize_text w), none) := by
    have hzip : (s.timeDefines.zip a.weathers).find?
        (fun p => decide (p.1.day = today)) = none := by
      rw [List.find?_eq_none]
      intro p hp
      have := (List.of_mem_zip hp).1
      simpa using hnone p.1 this
    rw [hws] at hzip
    simp only [weatherFields, hfind, hws, hzip]
  refine ⟨hw, ?_⟩
  intro parse rd ov
  have hok : (match (FEntry.mk rd [s]).timeSeries[2]? with
      | none => (Except.ok (none, none, none) :
          Except Unit (Option ℚ × Option ℚ × Option Nat))
      | some s' => tempPart parse today s') = .ok (none, none, none) := rfl
  have h0 : (match (FEntry.mk rd [s]).timeSeries[0]? with
      | none => ((none : Option String), (none : Option JDT))
      | some s' => weatherFields today s') = (some (normalize_text w), none) := by
    show weatherFields today s = _
    exact hw
  have h1 : (match (FEntry.mk rd [s]).timeSeries[1]? with
      | none => ([] : List (String × String))
      | some s' => popsPart today s') = [] := rfl
  simp only [get_weather_payload, hok, h0, h1]

/-- Witness for C4 at a concrete series. -/
theorem weatherFields_fallback_witness :
    weatherFields 9 (Series.mk [JDT.mk 3 "00:00", JDT.mk 4 "06:00"]
        [Area.mk (some "140010") [some "晴れ", some "くもり"] [] []]) =
      (some (normalize_text (some "晴れ")), none) :=
  (weatherFields_fallback 9
    (Series.mk [JDT.mk 3 "00:00", JDT.mk 4 "06:00"]
      [Area.mk (some "140010") [some "晴れ", some "くもり"] [] []])
    (Area.mk (some "140010") [some "晴れ", some "くもり"] [] [])
    (some "晴れ") [some "くもり"] (by decide) (by decide) rfl).1

/-- A pair whose timestamp is not on the target day (or whose value is
falsy) leaves the loop state unchanged. -/
theorem tempStep_inert (parse : String → Option ℚ) (today : Nat)
    (acc : Except Unit TempAcc) (tv : JDT × Option String)
    (h : tv.1.day ≠ today) : tempStep parse today acc tv = acc := by
  rcases acc with e | s
  · rfl
  · rcases tv with ⟨t, v⟩
    rcases v with _ | str
    · rfl
    · by_cases hs : str = ""
      · simp [tempStep, hs]
      · simp [tempStep, hs, h]

/-- With no same-day pair at all, the loop returns its initial state. -/
theorem tempFold_no_match (parse : String → Option ℚ) (today : Nat) :
    ∀ (l : List (JDT × Option String)) (acc : Except Unit TempAcc),
      (∀ tv ∈ l, tv.1.day ≠ today) →
      l.foldl (tempStep parse today) acc = acc := by
  intro l
  induction l with
  | nil => intro acc _; rfl
  | cons tv l ih =>
    intro acc h
    rw [List.foldl_cons, tempStep_inert parse today acc tv (h tv (by simp))]
    exact ih acc fun x hx => h x (List.mem_cons_of_mem _ hx)

/-- Applying `tempFields` to an empty value array never raises and leaves all three
temperature fields unset. -/
theorem tempFields_nil (parse : String → Option ℚ) (today : Nat)
    (timeDefines : List JDT) :
    tempFields parse today timeDefines [] = .ok (none, none, none) := by
  simp [tempFields, List.zip_nil_right]

/-- C3: when zero timestamps of the temperature series fall on the target
day, `get_weather_payload` falls back to positions 0 and 1 of the value
array: with at least two entries, `min_temp` and `max_temp` are the parsed
values at positions 0 and 1; with a single entry only `min_temp` is set. -/
theorem tempFields_fallback (parse : String → Option ℚ) (today : Nat)
    (timeDefines : List JDT) (s0 s1 : String) (rest : List (Option String))
    (hnone : ∀ t ∈ timeDefines, t.day ≠ today) :
    tempFields parse today timeDefines (some s0 :: some s1 :: rest) =
      .ok (parse s0, parse s1, timeDefines.head?.map fun t => t.day) ∧
    tempFields parse today timeDefines [some s0] =
      .ok (parse s0, none, timeDefines.head?.map fun t => t.day) ∧
    ∀ (sw sp : Series) (rd : Option JDT) (ov : Overview),
      ∃ p, get_weather_payload parse
          [FEntry.mk rd [sw, sp,
            Series.mk timeDefines
              [Area.mk (some TEMP_AREA_CODE) [] [] (some s0 :: some s1 :: rest)]]]
          ov today = .ok p ∧
        p.min_temp = parse s0 ∧ p.max_temp = parse s1 ∧
        p.temp_source_date = timeDefines.head?.map fun t => t.day := by
  have hloop : ∀ temps : List (Option String),
      (timeDefines.zip temps).foldl (tempStep parse today)
        (Except.ok (TempAcc.mk none none false)) =
      Except.ok (TempAcc.mk none none false) := by
    intro temps
    refine tempFold_no_match parse today _ _ ?_
    intro tv htv
    exact hnone tv.1 (List.of_mem_zip htv).1
  have hA : tempFields parse today timeDefines (some s0 :: some s1 :: rest) =
      .ok (parse s0, parse s1, timeDefines.head?.map fun t => t.day) := by
    simp [tempFields, hloop (some s0 :: some s1 :: rest)]
  have hB : tempFields parse today timeDefines [some s0] =
      .ok (parse s0, none, timeDefines.head?.map fun t => t.day) := by
    simp [tempFields, hloop [some s0]]
  refine ⟨hA, hB, ?_⟩
  intro sw sp rd ov
  have hfind : find_area_block
      [Area.mk (some TEMP_AREA_CODE) [] [] (some s0 :: some s1 :: rest)]
      TEMP_AREA_CODE =
      some (Area.mk (some TEMP_AREA_CODE) [] [] (some s0 :: some s1 :: rest)) := by
    simp [find_area_block]
  have hok : (match (FEntry.mk rd [sw, sp,
        Series.mk timeDefines
          [Area.mk (some TEMP_AREA_CODE) [] [] (some s0 :: some s1 :: rest)]]
        ).timeSeries[2]? with
      | none => (Except.ok (none, none, none) :
          Except Unit (Option ℚ × Option ℚ × Option Nat))
      | some s => tempPart parse today s) =
      .ok (parse s0, parse s1, timeDefines.head?.map fun t => t.day) := by
    show tempPart parse today
        (Series.mk timeDefines
          [Area.mk (some TEMP_AREA_CODE) [] [] (some s0 :: some s1 :: rest)]) = _
    simp only [tempPart, hfind]
    exact hA
  simp only [get_weather_payload, hok]
  exact ⟨_, rfl, rfl, rfl, rfl⟩

/-- Witness for C3 at a concrete series (both the two-entry and the
one-entry shape). -/
theorem tempFields_fallback_witness :
    tempFields (fun s => if s = "12" then some (12 : ℚ) else
        if s = "17" then some 17 else none) 9
        [JDT.mk 3 "00:00"] (some "12" :: some "17" :: []) =
      .ok (some 12, some 17, some 3) ∧
    tempFields (fun s => if s = "12" then some (12 : ℚ) else
        if s = "17" then some 17 else none) 9
        [JDT.mk 3 "00:00"] [some "12"] =
      .ok (some 12, none, some 3) := by
  have h := tempFields_fallback (fun s => if s = "12" then some (12 : ℚ) else
      if s = "17" then some 17 else none)
    9 [JDT.mk 3 "00:00"] "12" "17" [] (by decide)
  constructor
  · rw [h.1]; rfl
  · rw [h.2.1]; rfl

/-- The min/max update right-commutes: feeding two samples in either order
produces the same state. -/
theorem updAcc_comm (s : TempAcc) (p q : ℚ) :
    updAcc (updAcc s p) q = updAcc (updAcc s q) p := by
  rcases s with ⟨mn, mx, src⟩
  rcases mn with _ | m <;> rcases mx with _ | M <;>
    simp [updAcc, min_comm, max_comm, min_left_comm, max_left_comm]

/-- Every aligned pair acts on the loop state in one of three ways: it is
skipped, it raises, or it folds a parsed value into the running min/max. -/
theorem tempStep_classify (parse : String → Option ℚ) (today : Nat)
    (tv : JDT × Option String) :
    (∀ acc, tempStep parse today acc tv = acc) ∨
    (∀ st : TempAcc, tempStep parse today (.ok st) tv = .error ()) ∨
    (∃ q, ∀ st : TempAcc, tempStep parse today (.ok st) tv = .ok (updAcc st q)) := by
  rcases tv with ⟨t, v⟩
  rcases v with _ | str
  · exact Or.inl fun acc => by rcases acc with e | st <;> rfl
  · by_cases hs : str = ""
    · refine Or.inl fun acc => ?_
      rcases acc with e | st
      · rfl
      · simp [tempStep, hs]
    · by_cases hd : t.day = today
      · rcases hp : parse str with _ | q
        · exact Or.inr (Or.inl fun st => by simp [tempStep, hs, hd, hp])
        · exact Or.inr (Or.inr ⟨q, fun st => by simp [tempStep, hs, hd, hp]⟩)
      · refine Or.inl fun acc => ?_
        rcases acc with e | st
        · rfl
        · simp [tempStep, hs, hd]

/-- Two loop iterations right-commute. -/
theorem tempStep_right_comm (parse : String → Option ℚ) (today : Nat)
    (acc : Except Unit TempAcc) (a b : JDT × Option String) :
    tempStep parse today (tempStep parse today acc a) b =
      tempStep parse today (tempStep parse today acc b) a := by
  have herr : ∀ (e : Unit) tv, tempStep parse today (.error e) tv = .error e :=
    fun _ _ => rfl
  rcases acc with e | s
  · rfl
  · rcases tempStep_classify parse today a with ha | ha | ⟨qa, ha⟩ <;>
      rcases tempStep_classify parse today b with hb | hb | ⟨qb, hb⟩ <;>
      simp [herr, ha, hb, updAcc_comm]

/-- C6: the min/max temperature accumulation of `get_weather_payload` is
order-independent: folding the loop step over any permutation of the
aligned same-day samples yields the same state, hence the same
(min_temp, max_temp) pair. -/
theorem temp_accumulation_perm_invariant (parse : String → Option ℚ) (today : Nat)
    (l₁ l₂ : List (JDT × Option String)) (h : List.Perm l₁ l₂)
    (init : Except Unit TempAcc) :
    l₁.foldl (tempStep parse today) init = l₂.foldl (tempStep parse today) init :=
  h.foldl_eq' (fun x _ y _ z => tempStep_right_comm parse today z x y) init

/-- Witness for C6: two concrete same-day samples fed in both orders. -/
theorem temp_accumulation_perm_invariant_witness :
    [(JDT.mk 5 "00:00", some "12"), (JDT.mk 5 "06:00", some "17")].foldl
        (tempStep (fun s => if s = "12" then some (12 : ℚ) else
          if s = "17" then some 17 else none) 5)
        (.ok (TempAcc.mk none none false)) =
      [(JDT.mk 5 "06:00", some "17"), (JDT.mk 5 "00:00", some "12")].foldl
        (tempStep (fun s => if s = "12" then some (12 : ℚ) else
          if s = "17" then some 17 else none) 5)
        (.ok (TempAcc.mk none none false)) :=
  temp_accumulation_perm_invariant _ 5 _ _
    (List.Perm.swap (JDT.mk 5 "06:00", some "17") (JDT.mk 5 "00:00", some "12") [])
    _

/-- C8: a structurally unexpected forecast (fewer than three time series,
every series with an empty area array, every value array empty, or an
empty forecast array) still produces a payload without raising; the
overview text is populated from the overview payload regardless, and the
weather-text and pops fields are still populated from whatever series are
present. -/
theorem get_weather_payload_degrades (parse : String → Option ℚ)
    (fc0 : FEntry) (rest : List FEntry) (overview : Overview) (today : Nat)
    (h : fc0.timeSeries.length ≤ 2 ∨ (∀ s ∈ fc0.timeSeries, s.areas = []) ∨
      ∀ s ∈ fc0.timeSeries, ∀ a ∈ s.areas, a.temps = []) :
    (∃ p, get_weather_payload parse (fc0 :: rest) overview today = .ok p ∧
        p.overview_text = normalize_text overview.text ∧
        p.report_datetime = fc0.reportDatetime ∧
        (∀ s, fc0.timeSeries[0]? = some s →
          p.weather_text = (weatherFields today s).1 ∧
          p.weather_time = (weatherFields today s).2) ∧
        (∀ s, fc0.timeSeries[1]? = some s → p.pops = popsPart today s)) ∧
    get_weather_payload parse [] overview today =
      .ok (Payload.mk none none [] none none none
        (normalize_text overview.text) none) := by
  refine ⟨?_, rfl⟩
  have hok : (match fc0.timeSeries[2]? with
      | none => (Except.ok (none, none, none) :
          Except Unit (Option ℚ × Option ℚ × Option Nat))
      | some s => tempPart parse today s) = .ok (none, none, none) := by
    rcases h with hlen | hareas | htemps
    · have h2 : fc0.timeSeries[2]? = none := by
        rw [List.getElem?_eq_none_iff]
        exact hlen
      rw [h2]
    · cases h2 : fc0.timeSeries[2]? with
      | none => rfl
      | some s =>
        have hmem : s ∈ fc0.timeSeries := List.getElem?_mem h2
        have hs : s.areas = [] := hareas s hmem
        simp [tempPart, find_area_block, hs]
    · cases h2 : fc0.timeSeries[2]? with
      | none => rfl
      | some s =>
        have hmem : s ∈ fc0.timeSeries := List.getElem?_mem h2
        cases hf : find_area_block s.areas TEMP_AREA_CODE with
        | none => simp [tempPart, hf]
        | some a =>
          have ha : a ∈ s.areas := List.mem_of_find?_eq_some hf
          have ht : a.temps = [] := htemps s hmem a ha
          simp [tempPart, hf, ht, tempFields_nil]
  simp only [get_weather_payload, hok]
  refine ⟨_, rfl, rfl, rfl, ?_, ?_⟩
  · intro s h0
    rw [h0]
    exact ⟨rfl, rfl⟩
  · intro s h1
    rw [h1]

/-- Witness for C8: a forecast with a single, area-less time series. -/
theorem get_weather_payload_degrades_witness :
    get_weather_payload (fun _ => (none : Option ℚ)) []
        (Overview.mk (some "晴れです。")) 9 =
      .ok (Payload.mk none none [] none none none
        (normalize_text (some "晴れです。")) none) :=
  (get_weather_payload_degrades (fun _ => none)
    (FEntry.mk none [Series.mk [] []]) [] (Overview.mk (some "晴れです。")) 9
    (Or.inl (by decide))).2

/-- The item loop takes exactly the first `limit - n` remaining items. -/
theorem fetch_news_go_take (limit : Nat) :
    ∀ (items : List RawItem) (n : Nat), n < limit →
      fetch_news_go limit n items = (items.map extractItem).take (limit - n) := by
  intro items
  induction items with
  | nil => intro n _; simp [fetch_news_go]
  | cons r rs ih =>
    intro n h
    by_cases hl : limit ≤ n + 1
    · have hlim : limit = n + 1 := le_antisymm hl h
      have h1 : limit - n = 1 := by omega
      simp [fetch_news_go, hl, h1]
    · have hn1 : n + 1 < limit := lt_of_not_le hl
      have hsucc : limit - n = (limit - (n + 1)) + 1 := by omega
      rw [hsucc]
      simp only [fetch_news_go, if_neg hl, List.map_cons, List.take_succ_cons]
      rw [ih (n + 1) hn1]

/-- C7: `fetch_news` returns at most the configured limit of items, and
they are exactly the first `limit` feed items, extracted in feed order. -/
theorem fetch_news_truncates (items : List RawItem) (limit : Nat)
    (h : 1 ≤ limit) :
    fetch_news items limit = (items.map extractItem).take limit ∧
      (fetch_news items limit).length ≤ limit := by
  have hgo := fetch_news_go_take limit items 0 h
  constructor
  · simpa [fetch_news] using hgo
  · rw [fetch_news, hgo]
    simp [List.length_take_le]

/-- Witness for C7: a ten-item feed with the default limit of five. -/
theorem fetch_news_truncates_witness :
    fetch_news
        [RawItem.mk (some "n1") none none, RawItem.mk (some "n2") none none,
         RawItem.mk (some "n3") none none, RawItem.mk (some "n4") none none,
         RawItem.mk (some "n5") none none, RawItem.mk (some "n6") none none,
         RawItem.mk (some "n7") none none, RawItem.mk (some "n8") none none,
         RawItem.mk (some "n9") none none, RawItem.mk (some "n10") none none] 5 =
      (([RawItem.mk (some "n1") none none, RawItem.mk (some "n2") none none,
         RawItem.mk (some "n3") none none, RawItem.mk (some "n4") none none,
         RawItem.mk (some "n5") none none, RawItem.mk (some "n6") none none,
         RawItem.mk (some "n7") none none, RawItem.mk (some "n8") none none,
         RawItem.mk (some "n9") none none,
         RawItem.mk (some "n10") none none].map extractItem).take 5) ∧
      (fetch_news
        [RawItem.mk (some "n1") none none, RawItem.mk (some "n2") none none,
         RawItem.mk (some "n3") none none, RawItem.mk (some "n4") none none,
         RawItem.mk (some "n5") none none, RawItem.mk (some "n6") none none,
         RawItem.mk (some "n7") none none, RawItem.mk (some "n8") none none,
         RawItem.mk (some "n9") none none,
         RawItem.mk (some "n10") none none] 5).length ≤ 5 :=
  fetch_news_truncates
    [RawItem.mk (some "n1") none none, RawItem.mk (some "n2") none none,
     RawItem.mk (some "n3") none none, RawItem.mk (some "n4") none none,
     RawItem.mk (some "n5") none none, RawItem.mk (some "n6") none none,
     RawItem.mk (some "n7") none none, RawItem.mk (some "n8") none none,
     RawItem.mk (some "n9") none none, RawItem.mk (some "n10") none none] 5
    (by decide)

/-- C10: for every date, the garbage lookups for the day and the next day
find an entry: every weekday index 0-6 maps to a non-empty string, so the
"情報なし" default branch of `render_garbage_section` is unreachable. -/
theorem garbage_schedule_total (d : Nat) :
    (GARBAGE_SCHEDULE (weekday d)).isSome = true ∧
      (GARBAGE_SCHEDULE (weekday (d + 1))).isSome = true ∧
      garbage_info d ≠ "情報なし" ∧ garbage_info (d + 1) ≠ "情報なし" ∧
      garbage_info d ≠ "" ∧ garbage_info (d + 1) ≠ "" := by
  have key : ∀ k, k < 7 → (GARBAGE_SCHEDULE k).isSome = true ∧
      (GARBAGE_SCHEDULE k).getD "情報なし" ≠ "情報なし" ∧
      (GARBAGE_SCHEDULE k).getD "情報なし" ≠ "" := by decide
  have h1 := key (weekday d) (Nat.mod_lt d (by decide))
  have h2 := key (weekday (d + 1)) (Nat.mod_lt (d + 1) (by decide))
  exact ⟨h1.1, h2.1, h1.2.1, h2.2.1, h1.2.2, h2.2.2⟩
